import Mathlib

/-!
Verification development for the fprime-gds communications and transport spine.

The definitions below are a shallow embedding of the Python sources:
  * `src/fprime_gds/common/communication/updown.py` (`Downlinker`, `Uplinker`)
  * `src/fprime_gds/common/history/ram.py` (`RamHistory`, `SelfCleaningRamHistory`)
  * `src/fprime_gds/flask/components.py` (`FlaskEndpointRamHistory`)
  * `src/fprime_gds/flask/resource.py` (`HistoryResourceBase.get`)
  * `src/fprime_gds/common/transport.py` (`ThreadedTCPSocketClient`)
  * `src/fprime_gds/common/data_types/cmd_data.py` (`CmdData`)
together with a model of the default frame wire format, which is described by the
specification but whose implementation file is not part of this source tree.

Bytes are modelled as `Nat` values (< 256 for genuine byte data); byte strings as
`List Nat`.  Python `queue.Queue` is modelled explicitly, including its convention
that `maxsize = 0` means an unlimited queue.
-/

/-- Big-endian serialization of a natural number into 4 bytes, as performed by
`U32Type.serialize` (struct.pack of an unsigned 32-bit big-endian integer). -/
def natToBytes4 (n : Nat) : List Nat :=
  [n / 2 ^ 24 % 256, n / 2 ^ 16 % 256, n / 2 ^ 8 % 256, n % 256]

/-- Big-endian interpretation of a byte list as a natural number. -/
def bytesToNat (bs : List Nat) : Nat :=
  bs.foldl (fun acc b => acc * 256 + b) 0

theorem bytesToNat_natToBytes4 (n : Nat) (h : n < 2 ^ 32) :
    bytesToNat (natToBytes4 n) = n := by
  simp only [natToBytes4, bytesToNat, List.foldl]
  omega

/-- Model of Python `queue.Queue`: a FIFO of byte frames with a `maxsize`.
Following Python semantics, `maxsize = 0` (the default of `Queue()`) means the
queue size is unlimited. -/
structure PyQueue where
  maxsize : Nat
  items : List (List Nat)
deriving DecidableEq, Repr

/-- Python `Queue.put_nowait`: append the item if the queue is not full, raise
`Full` (modelled as `none`) when `0 < maxsize ≤ len(items)`. -/
def PyQueue.put_nowait (q : PyQueue) (x : List Nat) : Option PyQueue :=
  if 0 < q.maxsize ∧ q.maxsize ≤ q.items.length then none
  else some { q with items := q.items ++ [x] }

namespace Downlinker

/-- The `outgoing` queue as constructed by `Downlinker.__init__`:
`self.outgoing = Queue()`, i.e. the Python default with `maxsize = 0`. -/
def outgoing_init : PyQueue :=
  { maxsize := 0, items := [] }

/-- One enqueue from `Downlinker.deframing`'s loop body: `put_nowait(frame)`
with the surrounding `except Full` handler that drops the frame and logs a
warning.  Returns the queue and whether the warning fired. -/
def enqueue_frame (q : PyQueue) (frame : List Nat) : PyQueue × Bool :=
  match q.put_nowait frame with
  | some q' => (q', false)
  | none => (q, true)

/-- The enqueue loop of `Downlinker.deframing`: `for frame in frames:
put_nowait(frame)` wrapped in a single `try/except Full`.  A `Full` raised by
any frame aborts the remainder of the batch; one warning is logged. -/
def enqueue_frames (q : PyQueue) : List (List Nat) → PyQueue × Bool
  | [] => (q, false)
  | f :: rest =>
    match q.put_nowait f with
    | some q' => enqueue_frames q' rest
    | none => (q, true)

/-- `Downlinker.add_loopback_frame`: non-blocking enqueue of a loopback frame,
dropping it with a warning when the queue is full. -/
def add_loopback_frame (q : PyQueue) (frame : List Nat) : PyQueue × Bool :=
  match q.put_nowait frame with
  | some q' => (q', false)
  | none => (q, true)

end Downlinker

namespace Uplinker

/-- `Uplinker.RETRY_COUNT`. -/
def RETRY_COUNT : Nat := 3

/-- `Uplinker.get_handshake`, parameterized by the numeric value of
`DataDescType["FW_PACKET_HAND"].value` (defined outside this source tree):
serialize the descriptor as a big-endian 32-bit value and prepend it to the
uplinked packet. -/
def get_handshake (handVal : Nat) (packet : List Nat) : List Nat :=
  natToBytes4 handVal ++ packet

/-- Result of processing one uplink packet: the downlinker queue afterwards,
the exact byte strings passed to `adapter.write` in order, and whether the
retries-exhausted warning was logged. -/
structure UplinkResult where
  queue : PyQueue
  writes : List (List Nat)
  warned : Bool
deriving DecidableEq, Repr

/-- The retry loop of `Uplinker.uplink` for one framed packet:
`for retry in range(RETRY_COUNT): if adapter.write(framed): add_loopback_frame(
get_handshake(packet)); break` with the `for`-`else` warning when no attempt
succeeds.  `write` is the oracle of successive `adapter.write` outcomes,
indexed by attempt number; `fuel` counts remaining attempts. -/
def retry_loop (write : Nat → Bool) (framed handshake : List Nat) (q : PyQueue) :
    Nat → Nat → UplinkResult
  | 0, _ => { queue := q, writes := [], warned := true }
  | fuel + 1, attempt =>
    if write attempt then
      { queue := (Downlinker.add_loopback_frame q handshake).1,
        writes := [framed], warned := false }
    else
      let r := retry_loop write framed handshake q fuel (attempt + 1)
      { r with writes := framed :: r.writes }

/-- Processing of one packet from `ground.receive_all()` by `Uplinker.uplink`:
packets that are `None` or empty are filtered out; otherwise the packet is
framed (`frame_fn` models `framer.frame`) and pushed through the retry loop. -/
def handle_packet (write : Nat → Bool) (frame_fn : List Nat → List Nat)
    (handVal : Nat) (q : PyQueue) (packet : Option (List Nat)) : UplinkResult :=
  match packet with
  | none => { queue := q, writes := [], warned := false }
  | some p =>
    if 0 < p.length then
      retry_loop write (frame_fn p) (get_handshake handVal p) q RETRY_COUNT 0
    else
      { queue := q, writes := [], warned := false }

end Uplinker

namespace FpFraming

/-- Modelled from the spec: the default F prime wire format's `frame` operation,
whose implementation file (`fprime_gds/common/communication/framing.py`) is not
part of this source tree.  Encoded form: `START(4B) | LENGTH(4B big-endian) |
PAYLOAD | CHECKSUM(4B)`, the checksum computed over the (length || payload)
region by the selectable checksum function `crc`. -/
def frame (start : List Nat) (crc : List Nat → Nat) (payload : List Nat) : List Nat :=
  start ++ natToBytes4 payload.length ++ payload ++
    natToBytes4 (crc (natToBytes4 payload.length ++ payload))

/-- Scan for the first offset at which the start marker occurs in the pool. -/
def findMarker (start : List Nat) : List Nat → Option Nat
  | [] => none
  | b :: rest =>
    if (b :: rest).take start.length = start then some 0
    else (findMarker start rest).map (· + 1)

/-- Modelled from the spec: one pass of the default deframer over the byte pool
(the implementation file is not part of this source tree).  Returns
`(frames, remaining pool, discarded bytes)` following the five specified steps:
scan to the start marker discarding the bytes before it; wait for a complete
length field; treat an oversized length or a short pool as incomplete without
discarding; on checksum mismatch discard the first marker byte and resync; on
success emit the payload and continue past the checksum.  `fuel` bounds the
number of scan restarts (each consumes pool bytes, so `pool.length + 1`
suffices). -/
def deframe_go (start : List Nat) (crc : List Nat → Nat) (maxLen : Nat) :
    Nat → List Nat → List (List Nat) × List Nat × List Nat
  | 0, pool => ([], pool, [])
  | fuel + 1, pool =>
    match findMarker start pool with
    | none => ([], pool, [])
    | some i =>
      let disc := pool.take i
      let rest := pool.drop i
      let body := rest.drop start.length
      if body.length < 4 then ([], rest, disc)
      else
        let n := bytesToNat (body.take 4)
        if maxLen < n ∨ (body.drop 4).length < n + 4 then ([], rest, disc)
        else
          let payload := (body.drop 4).take n
          let stored := ((body.drop 4).drop n).take 4
          if stored = natToBytes4 (crc (body.take 4 ++ payload)) then
            let r := deframe_go start crc maxLen fuel
              (rest.drop (start.length + 4 + n + 4))
            (payload :: r.1, r.2.1, disc ++ r.2.2)
          else
            let r := deframe_go start crc maxLen fuel (rest.drop 1)
            (r.1, r.2.1, (disc ++ rest.take 1) ++ r.2.2)

/-- Modelled from the spec: `deframe_all` over an in-memory pool, with enough
fuel to process the whole pool. -/
def deframe_all (start : List Nat) (crc : List Nat → Nat) (maxLen : Nat)
    (pool : List Nat) : List (List Nat) × List Nat × List Nat :=
  deframe_go start crc maxLen (pool.length + 1) pool

end FpFraming

namespace TcpTransport

/-- Python `%`-formatting on byte strings restricted to the `%s` directive, as
used by `ThreadedTCPSocketClient`: each `%s` (bytes 37, 115) in the template is
replaced by the next substituted byte string. -/
def pyBytesFormat : List Nat → List (List Nat) → List Nat
  | [], _ => []
  | 37 :: 115 :: rest, sub :: subs => sub ++ pyBytesFormat rest subs
  | c :: rest, subs => c :: pyBytesFormat rest subs

/-- ASCII bytes of the send template `b"A5A5 %s %s"`. -/
def sendTemplate : List Nat :=
  [65, 53, 65, 53, 32, 37, 115, 32, 37, 115]

/-- ASCII bytes of the registration template `b"Register %s\n"`. -/
def registerTemplate : List Nat :=
  [82, 101, 103, 105, 115, 116, 101, 114, 32, 37, 115, 10]

/-- `RoutingTag.GUI.value`, the ASCII bytes of `b"GUI"`. -/
def tagGUI : List Nat := [71, 85, 73]

/-- `RoutingTag.FSW.value`, the ASCII bytes of `b"FSW"`. -/
def tagFSW : List Nat := [70, 83, 87]

/-- `ThreadedTCPSocketClient.send`: the exact bytes passed to `sock.send`,
namely `b"A5A5 %s %s" % (self.dest, data)`. -/
def client_send (dest data : List Nat) : List Nat :=
  pyBytesFormat sendTemplate [dest, data]

/-- The registration line sent by `ThreadedTCPSocketClient.connect`, namely
`b"Register %s\n" % incoming_routing.value`. -/
def register_line (incoming : List Nat) : List Nat :=
  pyBytesFormat registerTemplate [incoming]

/-- The ordered list of byte strings `ThreadedTCPSocketClient.connect` passes
to `sock.send` during a successful connect: exactly the registration line. -/
def connect_sends (incoming : List Nat) : List (List Nat) :=
  [register_line incoming]

end TcpTransport

/-- Session key of a history: the `start` argument of `retrieve`, a Python
value that is either `None` or a string token. -/
abbrev SessKey := Option String

/-- Lookup in a Python dict modelled as an association list (`d.get(k)`). -/
def dictGet : List (SessKey × Nat) → SessKey → Option Nat
  | [], _ => none
  | (k', v') :: rest, k => if k' = k then some v' else dictGet rest k

/-- Assignment `d[k] = v` on a Python dict modelled as an association list:
replace the first binding of `k`, or append a new binding. -/
def dictSet : List (SessKey × Nat) → SessKey → Nat → List (SessKey × Nat)
  | [], k, v => [(k, v)]
  | (k', v') :: rest, k, v =>
    if k' = k then (k, v) :: rest else (k', v') :: dictSet rest k v

/-- Deletion `del d[k]` (with the `KeyError` swallowed) on a Python dict
modelled as an association list. -/
def dictErase : List (SessKey × Nat) → SessKey → List (SessKey × Nat)
  | [], _ => []
  | (k', v') :: rest, k =>
    if k' = k then rest else (k', v') :: dictErase rest k

/-- Python `min(d.values())` over a non-empty dict; 0 for the empty dict (the
sources guard the call with a non-emptiness check that defaults to 0). -/
def minValues (m : List (SessKey × Nat)) : Nat :=
  match m.map Prod.snd with
  | [] => 0
  | v :: vs => vs.foldl Nat.min v

namespace RamHistory

/-- State of `RamHistory` (`fprime_gds/common/history/ram.py`): the append-only
`objects` list and the `retrieved_cursors` session dict. -/
structure State (α : Type) where
  objects : List α
  retrieved_cursors : List (SessKey × Nat)
deriving DecidableEq, Repr

/-- `RamHistory.data_callback`: append the object under the lock. -/
def data_callback {α : Type} (h : State α) (data : α) : State α :=
  { h with objects := h.objects ++ [data] }

/-- `RamHistory.retrieve`: with `start = None` the slice begins at 0, otherwise
at `retrieved_cursors.get(start, size)`; the slice runs to
`min(size, index + (limit if limit is not None else size))`; the cursor for
`start` (including the key `None`) is then set to the slice end.  Returns the
slice and the updated state. -/
def retrieve {α : Type} (h : State α) (start : SessKey) (limit : Option Nat) :
    List α × State α :=
  let size := h.objects.length
  let index := match start with
    | none => 0
    | some _ => (dictGet h.retrieved_cursors start).getD size
  let end_slice := Nat.min size (index + (limit.getD size))
  let objs := (h.objects.drop index).take (end_slice - index)
  (objs, { h with retrieved_cursors := dictSet h.retrieved_cursors start end_slice })

/-- `RamHistory.clear`: optionally delete the supplied session, compute
`earliest = min(retrieved_cursors.values())` (0 when no sessions), delete
`objects[:earliest]` and subtract `earliest` from every cursor. -/
def clear {α : Type} (h : State α) (start : Option String) : State α :=
  let m := match start with
    | none => h.retrieved_cursors
    | some s => dictErase h.retrieved_cursors (some s)
  let earliest := if m.length > 0 then minValues m else 0
  { objects := h.objects.drop earliest,
    retrieved_cursors := m.map (fun p => (p.1, p.2 - earliest)) }

end RamHistory

namespace FlaskEndpointRamHistory

/-- State of `FlaskEndpointRamHistory` (`fprime_gds/flask/components.py`),
which extends `SelfCleaningRamHistory` with the validation counters.  Times are
modelled as naturals supplied by the caller. -/
structure State (α : Type) where
  objects : List α
  retrieved_cursors : List (SessKey × Nat)
  last_request : List (SessKey × Nat)
  clear_time : Int
  count : Nat
  count_offsets : List (SessKey × Nat)
  count_values : List (SessKey × Nat)
deriving DecidableEq, Repr

/-- The `RamHistory` portion of the state. -/
def toRam {α : Type} (h : State α) : RamHistory.State α :=
  { objects := h.objects, retrieved_cursors := h.retrieved_cursors }

/-- `FlaskEndpointRamHistory.data_callback`: increment `count`, then append via
the parent history. -/
def data_callback {α : Type} (h : State α) (data : α) : State α :=
  { h with count := h.count + 1, objects := h.objects ++ [data] }

/-- `FlaskEndpointRamHistory.retrieve(self, start=None)`: when `start` is
supplied, stash `count_offsets[start] = count` if the session is new, set
`count_values[start] = count - count_offsets[start]`, then call
`SelfCleaningRamHistory.retrieve(start)` which records `last_request[start] =
time.time()` (the `now` argument) and delegates to `RamHistory.retrieve(start,
None)` - this override accepts no limit argument.  When `count_offsets[start]`
is absent despite the cursor existing (unreachable through this class) the
model reads 0 where Python would raise `KeyError`. -/
def retrieve {α : Type} (h : State α) (now : Nat) (start : SessKey) :
    List α × State α :=
  let h1 := match start with
    | none => h
    | some _ =>
      let offsets :=
        if (dictGet h.retrieved_cursors start).isNone then
          dictSet h.count_offsets start h.count
        else h.count_offsets
      { h with
        count_offsets := offsets,
        count_values :=
          dictSet h.count_values start (h.count - (dictGet offsets start).getD 0) }
  let h2 := match start with
    | none => h1
    | some _ => { h1 with last_request := dictSet h1.last_request start now }
  let (objs, ram) := RamHistory.retrieve (toRam h2) start none
  (objs, { h2 with objects := ram.objects,
                   retrieved_cursors := ram.retrieved_cursors })

/-- `FlaskEndpointRamHistory.get_seen_count`: `count_values.get(start, count)`. -/
def get_seen_count {α : Type} (h : State α) (start : SessKey) : Nat :=
  (dictGet h.count_values start).getD h.count

end FlaskEndpointRamHistory

namespace HistoryResource

/-- A Python value as passed in a dynamic call: the session string (or `None`)
or the integer limit. -/
inductive PyVal where
  | strV (s : String)
  | noneV
  | intV (n : Nat)
deriving DecidableEq, Repr

/-- Interpretation of a dynamically passed value as a session key. -/
def PyVal.toSessKey : PyVal → SessKey
  | .strV s => some s
  | _ => none

/-- Python `TypeError` raised by a call whose positional arguments exceed the
parameters of the function definition. -/
structure PyTypeError where
  message : String
deriving DecidableEq, Repr

/-- Arity-checked dynamic call of `FlaskEndpointRamHistory.retrieve`, whose
definition in `flask/components.py` is `def retrieve(self, start=None)`: it
accepts at most one positional argument beyond `self`, and a call with more
raises `TypeError`. -/
def call_retrieve {α : Type} (h : FlaskEndpointRamHistory.State α) (now : Nat)
    (args : List PyVal) :
    Except PyTypeError (List α × FlaskEndpointRamHistory.State α) :=
  match args with
  | [] => .ok (FlaskEndpointRamHistory.retrieve h now none)
  | [a] => .ok (FlaskEndpointRamHistory.retrieve h now a.toSessKey)
  | _ => .error ⟨"retrieve() takes from 1 to 2 positional arguments but more were given"⟩

/-- The retrieve call made by `HistoryResourceBase.get` in `flask/resource.py`:
`self.history.retrieve(session, int(limit))`, two positional arguments, where
`limit` defaults to 2000 when the request did not carry one. -/
def resource_get_retrieve {α : Type} (h : FlaskEndpointRamHistory.State α)
    (now : Nat) (session : PyVal) (limit : Option Nat) :
    Except PyTypeError (List α × FlaskEndpointRamHistory.State α) :=
  call_retrieve h now [session, PyVal.intV (limit.getD 2000)]

end HistoryResource

namespace CmdData

/-- A Python string as handled by the command argument coercion, modelled as
its character list so the operations compute. -/
abbrev PyStr := List Char

/-- ASCII lowercasing of one character (`str.lower` restricted to the ASCII
range that argument strings use). -/
def pyLowerChar (c : Char) : Char :=
  if 65 ≤ c.toNat ∧ c.toNat ≤ 90 then Char.ofNat (c.toNat + 32) else c

/-- Python `str.lower` on the modelled string. -/
def pyLower (s : PyStr) : PyStr := s.map pyLowerChar

/-- Python whitespace as stripped by `str.strip` (the common ASCII cases). -/
def pyIsSpace (c : Char) : Bool := c = ' ' ∨ c = '\t' ∨ c = '\n' ∨ c = '\r'

/-- Python `str.strip` on the modelled string. -/
def pyStrip (s : PyStr) : PyStr :=
  ((s.dropWhile pyIsSpace).reverse.dropWhile pyIsSpace).reverse

/-- The closed set of argument types dispatched on by
`CmdData.convert_arg_value` (`fprime_gds/common/data_types/cmd_data.py`).  The
type objects themselves come from the external `fprime` serialization
package. -/
inductive ArgTy where
  | boolTy | enumTy | f64Ty | f32Ty
  | i64Ty | u64Ty | i32Ty | u32Ty | i16Ty | u16Ty | i8Ty | u8Ty
  | stringTy | arrayTy | serializableTy | otherTy
deriving DecidableEq, Repr

/-- A coerced argument value: either a boolean produced by the in-repo boolean
coercion, or a value produced by one of the external converters. -/
inductive ArgVal (V : Type) where
  | boolV (b : Bool)
  | extV (v : V)
deriving DecidableEq, Repr

/-- The external coercion primitives called by `convert_arg_value` - the
`fprime` package's typed value setters together with Python's `float`,
`int(x, 0)` and `json.loads`.  They are outside this source tree, so they are
oracles producing either a value or the stringized exception. -/
structure Externals (V : Type) where
  set_enum : PyStr → Except String V
  to_float : PyStr → Except String V
  to_int : ArgTy → PyStr → Except String V
  set_string : PyStr → Except String V
  json_loads : PyStr → Except String V

/-- `CmdData.convert_arg_value`: `None` raises "Argument was not set"; booleans
are parsed in-repo from `str(arg_val).lower().strip()`; the remaining branches
delegate to the external setters; an unknown type object raises the conversion
error. -/
def convert_arg_value {V : Type} (ext : Externals V) (arg_val : Option PyStr) :
    ArgTy → Except String (ArgVal V)
  | t =>
    match arg_val with
    | none => .error "Argument was not set"
    | some s =>
      match t with
      | .boolTy =>
        let value := pyStrip (pyLower s)
        if value = "true".toList ∨ value = "yes".toList then .ok (.boolV true)
        else if value = "false".toList ∨ value = "no".toList then .ok (.boolV false)
        else .error "Argument value is not a valid boolean"
      | .enumTy => (ext.set_enum s).map .extV
      | .f64Ty => (ext.to_float s).map .extV
      | .f32Ty => (ext.to_float s).map .extV
      | .i64Ty => (ext.to_int .i64Ty s).map .extV
      | .u64Ty => (ext.to_int .u64Ty s).map .extV
      | .i32Ty => (ext.to_int .i32Ty s).map .extV
      | .u32Ty => (ext.to_int .u32Ty s).map .extV
      | .i16Ty => (ext.to_int .i16Ty s).map .extV
      | .u16Ty => (ext.to_int .u16Ty s).map .extV
      | .i8Ty => (ext.to_int .i8Ty s).map .extV
      | .u8Ty => (ext.to_int .u8Ty s).map .extV
      | .stringTy => (ext.set_string s).map .extV
      | .arrayTy => (ext.json_loads s).map .extV
      | .serializableTy => (ext.json_loads s).map .extV
      | .otherTy => .error "Argument value could not be converted to type object"

/-- A command template as consumed by `CmdData`: the opcode and the ordered
`(name, description, type)` argument tuples. -/
structure CmdTemplate where
  id : Nat
  arguments : List (String × String × ArgTy)

/-- The loop body of `CmdData.process_args` over `zip(input_values,
template.arguments)`: a successful coercion appends the value to `args` and
`""` to `errors`; a raised exception appends its message to `errors` only. -/
def process_args_zip {V : Type} (ext : Externals V) :
    List (Option PyStr × (String × String × ArgTy)) →
    List (ArgVal V) × List String
  | [] => ([], [])
  | (val, arg_tuple) :: rest =>
    let tail := process_args_zip ext rest
    match convert_arg_value ext val arg_tuple.2.2 with
    | .ok a => (a :: tail.1, "" :: tail.2)
    | .error e => (tail.1, e :: tail.2)

/-- `CmdData.process_args`: run the coercion loop over the zip of the supplied
values with the template arguments, returning `(args, errors)`. -/
def process_args {V : Type} (ext : Externals V) (cmd_temp : CmdTemplate)
    (input_values : List (Option PyStr)) : List (ArgVal V) × List String :=
  process_args_zip ext (input_values.zip cmd_temp.arguments)

/-- A fully constructed `CmdData` object (the fields relevant to dispatch). -/
structure CmdObj (V : Type) where
  id : Nat
  args : List (ArgVal V)

/-- `CmdData.__init__` restricted to argument processing: process the
arguments, and if any error string is non-empty raise
`CommandArgumentsException(errors)` (modelled as `Except.error` carrying the
whole per-argument error list), producing no command object. -/
def init {V : Type} (ext : Externals V) (cmd_args : List (Option PyStr))
    (cmd_temp : CmdTemplate) : Except (List String) (CmdObj V) :=
  let pa := process_args ext cmd_temp cmd_args
  if (pa.2.filter (fun e => e ≠ "")).length > 0 then .error pa.2
  else .ok { id := cmd_temp.id, args := pa.1 }

end CmdData

theorem put_nowait_of_maxsize_zero (q : PyQueue) (x : List Nat) (h : q.maxsize = 0) :
    q.put_nowait x = some { q with items := q.items ++ [x] } := by
  simp [PyQueue.put_nowait, h]

theorem put_nowait_of_full (q : PyQueue) (x : List Nat) (h0 : 0 < q.maxsize)
    (hfull : q.maxsize ≤ q.items.length) : q.put_nowait x = none := by
  simp [PyQueue.put_nowait, h0, hfull]

/-- C10: in `Downlinker.deframing`, the single `try/except Full` wraps the
whole enqueue loop of one deframe batch, so when some frame of the batch finds
the queue full, that frame and every later frame of the batch are dropped
together with one warning, while the frames enqueued earlier in the batch
remain on the queue in their original order. -/
theorem enqueue_frames_aborts_batch (frames : List (List Nat)) (q : PyQueue)
    (hmax : 0 < q.maxsize) (hne : frames ≠ [])
    (hover : q.maxsize < q.items.length + frames.length) :
    Downlinker.enqueue_frames q frames =
      ({ q with items := q.items ++ frames.take (q.maxsize - q.items.length) },
        true) := by
  induction frames generalizing q with
  | nil => exact absurd rfl hne
  | cons f rest ih =>
    by_cases hfull : q.maxsize ≤ q.items.length
    · have hput := put_nowait_of_full q f hmax hfull
      have htake : q.maxsize - q.items.length = 0 := by omega
      simp [Downlinker.enqueue_frames, hput, htake]
    · have hlt : q.items.length < q.maxsize := by omega
      have hput : q.put_nowait f = some { q with items := q.items ++ [f] } := by
        simp [PyQueue.put_nowait]
        omega
      have hrest : rest ≠ [] := by
        cases rest with
        | nil => simp at hover; omega
        | cons _ _ => simp
      have hover' :
          q.maxsize < ({ q with items := q.items ++ [f] } : PyQueue).items.length
            + rest.length := by
        simp at hover ⊢
        omega
      have := ih { q with items := q.items ++ [f] } hmax hrest hover'
      simp only [Downlinker.enqueue_frames, hput]
      rw [this]
      have hsub : q.maxsize - q.items.length = (q.maxsize - (q.items.length + 1)) + 1 := by
        omega
      simp [hsub, List.take_succ_cons]

theorem enqueue_frames_aborts_batch_witness :
    0 < (2 : Nat) ∧ ([[1], [2], [3]] : List (List Nat)) ≠ [] ∧
      (2 : Nat) < [[0]].length + [[1], [2], [3]].length ∧
      Downlinker.enqueue_frames { maxsize := 2, items := [[0]] } [[1], [2], [3]] =
        ({ maxsize := 2, items := [[0]] ++ [[1], [2], [3]].take (2 - [[0]].length) },
          true) :=
  ⟨by decide, by decide, by decide,
    enqueue_frames_aborts_batch [[1], [2], [3]] { maxsize := 2, items := [[0]] }
      (by decide) (by decide) (by decide)⟩

/-- C2 counterexample: the outgoing queue constructed by `Downlinker.__init__`
is `Queue()` with `maxsize = 0`, i.e. unlimited, so an enqueue onto the
constructed queue that already holds one frame simply appends (length becomes
2, no drop, no warning) - the claim's "constructed with a finite capacity" and
the capacity-1 drop scenario are false of the constructed queue. -/
theorem downlink_queue_unbounded_cex :
    Downlinker.outgoing_init.maxsize = 0 ∧
      Downlinker.enqueue_frame { Downlinker.outgoing_init with items := [[1]] } [2] =
        ({ maxsize := 0, items := [[1], [2]] }, false) := by
  decide

/-- C2 amended: the outgoing queue is a FIFO constructed by `Downlinker.__init__`
with the `Queue()` default `maxsize = 0`, i.e. unlimited capacity, so enqueues
never find it full and always append in order without blocking; the enqueue
path nonetheless handles `Full` by dropping the frame with a warning, so a
queue with finite capacity that is already full drops the incoming frame with
a warning, leaving the retained contents and their order unchanged. -/
theorem downlink_queue_drop_semantics :
    Downlinker.outgoing_init.maxsize = 0 ∧
      (∀ q : PyQueue, ∀ f : List Nat, q.maxsize = 0 →
        Downlinker.enqueue_frame q f = ({ q with items := q.items ++ [f] }, false)) ∧
      (∀ q : PyQueue, ∀ f : List Nat, 0 < q.maxsize → q.maxsize ≤ q.items.length →
        Downlinker.enqueue_frame q f = (q, true)) := by
  refine ⟨rfl, ?_, ?_⟩
  · intro q f h
    simp [Downlinker.enqueue_frame, put_nowait_of_maxsize_zero q f h]
  · intro q f h0 hfull
    simp [Downlinker.enqueue_frame, put_nowait_of_full q f h0 hfull]

theorem downlink_queue_drop_semantics_witness :
    Downlinker.outgoing_init.maxsize = 0 ∧
      Downlinker.enqueue_frame { maxsize := 0, items := [[5]] } [6] =
        ({ maxsize := 0, items := [[5], [6]] }, false) ∧
      Downlinker.enqueue_frame { maxsize := 1, items := [[7]] } [8] =
        ({ maxsize := 1, items := [[7]] }, true) :=
  ⟨downlink_queue_drop_semantics.1,
    by
      have := downlink_queue_drop_semantics.2.1 { maxsize := 0, items := [[5]] } [6] rfl
      simpa using this,
    downlink_queue_drop_semantics.2.2 { maxsize := 1, items := [[7]] } [8]
      (by decide) (by decide)⟩

theorem retry_loop_first_success (write : Nat → Bool) (framed handshake : List Nat)
    (q : PyQueue) (k : Nat) :
    ∀ fuel attempt, k < fuel → (∀ j, j < k → write (attempt + j) = false) →
      write (attempt + k) = true →
      Uplinker.retry_loop write framed handshake q fuel attempt =
        { queue := (Downlinker.add_loopback_frame q handshake).1,
          writes := List.replicate (k + 1) framed, warned := false } := by
  induction k with
  | zero =>
    intro fuel attempt hk hbefore hsucc
    match fuel, hk with
    | fuel + 1, _ =>
      simp only [Uplinker.retry_loop]
      rw [show attempt + 0 = attempt from rfl] at hsucc
      simp [hsucc, List.replicate]
  | succ k ih =>
    intro fuel attempt hk hbefore hsucc
    match fuel, hk with
    | fuel + 1, _ =>
      have hfail : write attempt = false := by
        have := hbefore 0 (Nat.succ_pos k)
        simpa using this
      have hrest := ih fuel (attempt + 1) (by omega)
        (fun j hj => by
          have := hbefore (j + 1) (by omega)
          rwa [show attempt + (j + 1) = attempt + 1 + j by omega] at this)
        (by rwa [show attempt + (k + 1) = attempt + 1 + k by omega] at hsucc)
      simp only [Uplinker.retry_loop, hfail, Bool.false_eq_true, if_false]
      rw [hrest]
      simp [List.replicate]

theorem retry_loop_all_fail (write : Nat → Bool) (framed handshake : List Nat)
    (q : PyQueue) :
    ∀ fuel attempt, (∀ j, j < fuel → write (attempt + j) = false) →
      Uplinker.retry_loop write framed handshake q fuel attempt =
        { queue := q, writes := List.replicate fuel framed, warned := true } := by
  intro fuel
  induction fuel with
  | zero => intro attempt _; simp [Uplinker.retry_loop]
  | succ fuel ih =>
    intro attempt hall
    have hfail : write attempt = false := by
      have := hall 0 (Nat.succ_pos fuel)
      simpa using this
    have hrest := ih (attempt + 1) (fun j hj => by
      have := hall (j + 1) (by omega)
      rwa [show attempt + (j + 1) = attempt + 1 + j by omega] at this)
    simp only [Uplinker.retry_loop, hfail, Bool.false_eq_true, if_false]
    rw [hrest]
    simp [List.replicate]

/-- C1: for every non-empty payload from the ground handler, `Uplinker.uplink`
frames it and calls `adapter.write` on the framed bytes at most
`RETRY_COUNT = 3` times; on the first successful attempt `k` (`k < 3`) exactly
one handshake packet - the 32-bit `FW_PACKET_HAND` descriptor followed by the
original payload - is appended to the downlinker's outgoing queue (which is
constructed with `maxsize = 0`, so the enqueue never drops) and no further
attempts are made; when all 3 attempts fail, no handshake is enqueued and the
payload is dropped with a warning. -/
theorem uplink_retry_handshake (write : Nat → Bool) (frame_fn : List Nat → List Nat)
    (handVal : Nat) (q : PyQueue) (p : List Nat)
    (hq : q.maxsize = 0) (hp : 0 < p.length) :
    (∀ k, k < 3 → (∀ j, j < k → write j = false) → write k = true →
      Uplinker.handle_packet write frame_fn handVal q (some p) =
        { queue := { q with items := q.items ++ [Uplinker.get_handshake handVal p] },
          writes := List.replicate (k + 1) (frame_fn p), warned := false }) ∧
    ((∀ k, k < 3 → write k = false) →
      Uplinker.handle_packet write frame_fn handVal q (some p) =
        { queue := q, writes := List.replicate 3 (frame_fn p), warned := true }) := by
  have hloop : Downlinker.add_loopback_frame q (Uplinker.get_handshake handVal p) =
      ({ q with items := q.items ++ [Uplinker.get_handshake handVal p] }, false) := by
    simp [Downlinker.add_loopback_frame,
      put_nowait_of_maxsize_zero q (Uplinker.get_handshake handVal p) hq]
  constructor
  · intro k hk hbefore hsucc
    simp only [Uplinker.handle_packet, hp, if_true]
    rw [retry_loop_first_success write (frame_fn p) (Uplinker.get_handshake handVal p)
      q k Uplinker.RETRY_COUNT 0 hk
      (fun j hj => by simpa using hbefore j hj) (by simpa using hsucc)]
    rw [hloop]
  · intro hall
    simp only [Uplinker.handle_packet, hp, if_true]
    rw [retry_loop_all_fail write (frame_fn p) (Uplinker.get_handshake handVal p)
      q Uplinker.RETRY_COUNT 0 (fun j hj => by simpa using hall j hj)]
    rfl

theorem uplink_retry_handshake_witness :
    Downlinker.outgoing_init.maxsize = 0 ∧ 0 < ([170] : List Nat).length ∧
      Uplinker.handle_packet (fun k => decide (k = 2)) (fun l => 9 :: l) 67
          Downlinker.outgoing_init (some [170]) =
        { queue := { Downlinker.outgoing_init with
            items := Downlinker.outgoing_init.items ++
              [Uplinker.get_handshake 67 [170]] },
          writes := List.replicate (2 + 1) ((fun l => 9 :: l) [170]),
          warned := false } :=
  ⟨rfl, by decide,
    (uplink_retry_handshake (fun k => decide (k = 2)) (fun l => 9 :: l) 67
      Downlinker.outgoing_init [170] rfl (by decide)).1 2 (by decide)
      (fun j hj => by revert hj; revert j; decide) (by decide)⟩

theorem dictGet_dictSet_self (m : List (SessKey × Nat)) (k : SessKey) (v : Nat) :
    dictGet (dictSet m k v) k = some v := by
  induction m with
  | nil => simp [dictGet, dictSet]
  | cons p rest ih =>
    cases p with
    | mk k' v' =>
      by_cases hk : k' = k
      · simp [dictSet, hk, dictGet]
      · simp [dictSet, hk, dictGet, ih]

theorem dictSet_eq_self_of_get (m : List (SessKey × Nat)) (k : SessKey) (v : Nat)
    (h : dictGet m k = some v) : dictSet m k v = m := by
  induction m with
  | nil => simp [dictGet] at h
  | cons p rest ih =>
    cases p with
    | mk k' v' =>
      by_cases hk : k' = k
      · simp only [dictGet, hk, if_true, Option.some.injEq] at h
        simp [dictSet, hk, h]
      · simp only [dictGet, hk, if_false] at h
        simp [dictSet, hk, ih h]

theorem dictGet_mem (m : List (SessKey × Nat)) (k : SessKey) (v : Nat)
    (h : dictGet m k = some v) : (k, v) ∈ m := by
  induction m with
  | nil => simp [dictGet] at h
  | cons p rest ih =>
    cases p with
    | mk k' v' =>
      by_cases hk : k' = k
      · simp only [dictGet, hk, if_true, Option.some.injEq] at h
        simp [hk, h]
      · simp only [dictGet, hk, if_false] at h
        exact List.mem_cons_of_mem _ (ih h)

theorem dictGet_map_sub (m : List (SessKey × Nat)) (k : SessKey) (v e : Nat)
    (h : dictGet m k = some v) :
    dictGet (m.map (fun p => (p.1, p.2 - e))) k = some (v - e) := by
  induction m with
  | nil => simp [dictGet] at h
  | cons p rest ih =>
    cases p with
    | mk k' v' =>
      by_cases hk : k' = k
      · simp only [dictGet, hk, if_true, Option.some.injEq] at h
        simp [dictGet, hk, h]
      · simp only [dictGet, hk, if_false] at h
        simp [dictGet, hk, ih h]

theorem foldl_min_le (l : List Nat) : ∀ a : Nat,
    l.foldl Nat.min a ≤ a ∧ ∀ x ∈ l, l.foldl Nat.min a ≤ x := by
  induction l with
  | nil =>
    intro a
    exact ⟨Nat.le_refl a, by intro x hx; simp at hx⟩
  | cons b t ih =>
    intro a
    have h := ih (Nat.min a b)
    refine ⟨Nat.le_trans h.1 (Nat.min_le_left a b), ?_⟩
    intro x hx
    rcases List.mem_cons.mp hx with hb | ht
    · rw [hb]
      exact Nat.le_trans h.1 (Nat.min_le_right a b)
    · exact h.2 x ht

theorem minValues_le (m : List (SessKey × Nat)) (k : SessKey) (v : Nat)
    (h : dictGet m k = some v) : minValues m ≤ v := by
  have hmem : v ∈ m.map Prod.snd :=
    List.mem_map_of_mem Prod.snd (dictGet_mem m k v h)
  simp only [minValues]
  cases hm : m.map Prod.snd with
  | nil => rw [hm] at hmem; simp at hmem
  | cons w ws =>
    rw [hm] at hmem
    rcases List.mem_cons.mp hmem with hw | hws
    · rw [hw]
      exact (foldl_min_le ws w).1
    · exact (foldl_min_le ws w).2 v hws

/-- C5: the first `retrieve` with a session token unknown to
`FlaskEndpointRamHistory` creates the session with its cursor at the current
stream tail, returns an empty record list, and reports a validation count of 0
for that first retrieve. -/
theorem flask_first_retrieve {α : Type} (h : FlaskEndpointRamHistory.State α)
    (now : Nat) (s : String)
    (hnew : dictGet h.retrieved_cursors (some s) = none) :
    (FlaskEndpointRamHistory.retrieve h now (some s)).1 = [] ∧
    dictGet (FlaskEndpointRamHistory.retrieve h now (some s)).2.retrieved_cursors
        (some s) = some h.objects.length ∧
    FlaskEndpointRamHistory.get_seen_count
        (FlaskEndpointRamHistory.retrieve h now (some s)).2 (some s) = 0 := by
  simp only [FlaskEndpointRamHistory.retrieve, FlaskEndpointRamHistory.toRam,
    FlaskEndpointRamHistory.get_seen_count, RamHistory.retrieve, hnew,
    Option.isNone_none, if_true, Option.getD_none, Option.getD_some,
    dictGet_dictSet_self, Nat.sub_self]
  refine ⟨?_, ?_, ?_⟩
  · simp [Nat.min_def]
  · simp [dictGet_dictSet_self]
  · simp [dictGet_dictSet_self]

theorem flask_first_retrieve_witness :
    dictGet [(some "t", 1)] (some "s") = none ∧
      ((FlaskEndpointRamHistory.retrieve
          { objects := [7, 8], retrieved_cursors := [(some "t", 1)],
            last_request := [], clear_time := -1, count := 2,
            count_offsets := [(some "t", 0)], count_values := [(some "t", 1)] }
          5 (some "s")).1 = ([] : List Nat) ∧
        dictGet (FlaskEndpointRamHistory.retrieve
          { objects := [7, 8], retrieved_cursors := [(some "t", 1)],
            last_request := [], clear_time := -1, count := 2,
            count_offsets := [(some "t", 0)], count_values := [(some "t", 1)] }
          5 (some "s")).2.retrieved_cursors (some "s") = some 2 ∧
        FlaskEndpointRamHistory.get_seen_count
          (FlaskEndpointRamHistory.retrieve
            { objects := [7, 8], retrieved_cursors := [(some "t", 1)],
              last_request := [], clear_time := -1, count := 2,
              count_offsets := [(some "t", 0)], count_values := [(some "t", 1)] }
            5 (some "s")).2 (some "s") = 0) :=
  ⟨by decide,
    flask_first_retrieve
      { objects := [7, 8], retrieved_cursors := [(some "t", 1)],
        last_request := [], clear_time := -1, count := 2,
        count_offsets := [(some "t", 0)], count_values := [(some "t", 1)] }
      5 "s" (by decide)⟩

/-- C7 counterexample: for a session token never seen before, `retrieve(S, 0)`
is not a no-op - it records the session's cursor at the then-current tail, so
after one more append a subsequent `retrieve(S)` returns the appended record,
whereas without the zero-limit call the same subsequent `retrieve(S)` would
have created the session at the later tail and returned nothing. -/
theorem ram_retrieve_zero_cex :
    (RamHistory.retrieve
        (RamHistory.data_callback
          (RamHistory.retrieve
            ({ objects := [], retrieved_cursors := [] } : RamHistory.State Nat)
            (some "s") (some 0)).2 7)
        (some "s") none).1 ≠
      (RamHistory.retrieve
        (RamHistory.data_callback
          ({ objects := [], retrieved_cursors := [] } : RamHistory.State Nat) 7)
        (some "s") none).1 := by
  decide

/-- C7 amended: for every history state and every session S that already has a
cursor (within the stream bounds), `retrieve(S, 0)` returns the empty list and
leaves the history state entirely unchanged - in particular it does not
advance S's cursor - so any subsequent `retrieve(S)` returns exactly the
records it would have returned had the zero-limit call not happened. -/
theorem ram_retrieve_zero_noop {α : Type} (h : RamHistory.State α) (s : String)
    (c : Nat) (hs : dictGet h.retrieved_cursors (some s) = some c)
    (hc : c ≤ h.objects.length) :
    RamHistory.retrieve h (some s) (some 0) = ([], h) := by
  have hmin : Nat.min h.objects.length (c + 0) = c := by
    rw [Nat.add_zero]
    exact Nat.min_eq_right hc
  simp only [RamHistory.retrieve, hs, Option.getD_some, Option.getD_none, hmin,
    Nat.sub_self, List.take_zero]
  rw [dictSet_eq_self_of_get h.retrieved_cursors (some s) c hs]

theorem ram_retrieve_zero_noop_witness :
    dictGet [(some "a", 1)] (some "a") = some 1 ∧ 1 ≤ ([3, 4] : List Nat).length ∧
      RamHistory.retrieve
          ({ objects := [3, 4], retrieved_cursors := [(some "a", 1)] } :
            RamHistory.State Nat)
          (some "a") (some 0) =
        ([], { objects := [3, 4], retrieved_cursors := [(some "a", 1)] }) :=
  ⟨by decide, by decide,
    ram_retrieve_zero_noop
      { objects := [3, 4], retrieved_cursors := [(some "a", 1)] } "a" 1
      (by decide) (by decide)⟩

/-- C6: `RamHistory.clear()` removes exactly the records at indices strictly
below the minimum cursor of the live sessions and decrements every session
cursor by that same count, so a `retrieve(S)` issued immediately after
`clear()` returns the same slice of records (for any limit) that the same
retrieve would have returned immediately before `clear()`, for any session S
live at clear time. -/
theorem ram_clear_preserves_retrieve {α : Type} (h : RamHistory.State α) (s : String)
    (c : Nat) (limit : Option Nat)
    (hall : ∀ p ∈ h.retrieved_cursors, p.2 ≤ h.objects.length)
    (hs : dictGet h.retrieved_cursors (some s) = some c) :
    (RamHistory.clear h none).objects =
      h.objects.drop (minValues h.retrieved_cursors) ∧
    (RamHistory.clear h none).retrieved_cursors =
      h.retrieved_cursors.map
        (fun p => (p.1, p.2 - minValues h.retrieved_cursors)) ∧
    (RamHistory.retrieve (RamHistory.clear h none) (some s) limit).1 =
      (RamHistory.retrieve h (some s) limit).1 := by
  have hne : h.retrieved_cursors ≠ [] := by
    intro hnil
    rw [hnil] at hs
    simp [dictGet] at hs
  have hlen : 0 < h.retrieved_cursors.length := List.length_pos.mpr hne
  have hclear : RamHistory.clear h none =
      { objects := h.objects.drop (minValues h.retrieved_cursors),
        retrieved_cursors := h.retrieved_cursors.map
          (fun p => (p.1, p.2 - minValues h.retrieved_cursors)) } := by
    simp [RamHistory.clear, hlen]
  have hec : minValues h.retrieved_cursors ≤ c := minValues_le _ _ _ hs
  have hcs : c ≤ h.objects.length := hall _ (dictGet_mem _ _ _ hs)
  refine ⟨by rw [hclear], by rw [hclear], ?_⟩
  rw [hclear]
  have hget' := dictGet_map_sub h.retrieved_cursors (some s) c
    (minValues h.retrieved_cursors) hs
  simp only [RamHistory.retrieve, hget', hs, Option.getD_some, List.length_drop]
  rw [List.drop_drop]
  have hdc : minValues h.retrieved_cursors + (c - minValues h.retrieved_cursors) = c := by
    omega
  rw [hdc]
  congr 1
  cases limit with
  | none =>
    simp only [Option.getD_none, Nat.min_def]
    split_ifs <;> omega
  | some L =>
    simp only [Option.getD_some, Nat.min_def]
    split_ifs <;> omega

theorem ram_clear_preserves_retrieve_witness :
    (∀ p ∈ [(some "a", 1), (some "b", 2)],
        p.2 ≤ ([10, 20, 30] : List Nat).length) ∧
      dictGet [(some "a", 1), (some "b", 2)] (some "b") = some 2 ∧
      ((RamHistory.clear
            ({ objects := [10, 20, 30],
               retrieved_cursors := [(some "a", 1), (some "b", 2)] } :
              RamHistory.State Nat) none).objects =
          ([10, 20, 30] : List Nat).drop
            (minValues [(some "a", 1), (some "b", 2)]) ∧
        (RamHistory.clear
            ({ objects := [10, 20, 30],
               retrieved_cursors := [(some "a", 1), (some "b", 2)] } :
              RamHistory.State Nat) none).retrieved_cursors =
          [(some "a", 1), (some "b", 2)].map
            (fun p => (p.1, p.2 - minValues [(some "a", 1), (some "b", 2)])) ∧
        (RamHistory.retrieve
            (RamHistory.clear
              ({ objects := [10, 20, 30],
                 retrieved_cursors := [(some "a", 1), (some "b", 2)] } :
                RamHistory.State Nat) none)
            (some "b") (some 5)).1 =
          (RamHistory.retrieve
            ({ objects := [10, 20, 30],
               retrieved_cursors := [(some "a", 1), (some "b", 2)] } :
              RamHistory.State Nat)
            (some "b") (some 5)).1) :=
  ⟨by decide, by decide,
    ram_clear_preserves_retrieve
      { objects := [10, 20, 30], retrieved_cursors := [(some "a", 1), (some "b", 2)] }
      "b" 2 (some 5) (by decide) (by decide)⟩

/-- C4 (code defect): `HistoryResourceBase.get` calls
`self.history.retrieve(session, int(limit))` with two positional arguments,
but `FlaskEndpointRamHistory.retrieve` is defined as `retrieve(self,
start=None)` and accepts only one, so every such GET raises `TypeError`
instead of returning the `{history, validation, errors}` object, and the
`limit` parameter (default 2000) is never applied. -/
theorem resource_get_retrieve_type_error {α : Type}
    (h : FlaskEndpointRamHistory.State α) (now : Nat)
    (session : HistoryResource.PyVal) (limit : Option Nat) :
    HistoryResource.resource_get_retrieve h now session limit =
      Except.error
        ⟨"retrieve() takes from 1 to 2 positional arguments but more were given"⟩ :=
  rfl

/-- C8 counterexample: the bytes `ThreadedTCPSocketClient.send` passes to the
socket for destination tag `FSW` and payload `[88]` are
`b"A5A5 FSW X"` - the 4-byte marker is followed by a space byte, not
immediately by the routing tag, so the claimed layout
`marker | tag | payload` does not match the sent bytes. -/
theorem tcp_send_envelope_cex :
    TcpTransport.client_send TcpTransport.tagFSW [88] ≠
      [65, 53, 65, 53] ++ TcpTransport.tagFSW ++ [88] := by
  decide

/-- C8 amended: every message the internal TCP transport client sends consists
of the fixed 4-byte start marker `b"A5A5"`, a single space byte, the 3-byte
outgoing routing tag, another single space byte, and then the payload bytes
(`b"A5A5 %s %s" % (dest, data)`); and on connect the client's only socket send
is exactly the registration line `b"Register %s\n"` for its incoming tag. -/
theorem tcp_send_envelope (dest data incoming : List Nat) :
    TcpTransport.client_send dest data =
      [65, 53, 65, 53] ++ [32] ++ dest ++ [32] ++ data ∧
    TcpTransport.register_line incoming =
      [82, 101, 103, 105, 115, 116, 101, 114, 32] ++ incoming ++ [10] ∧
    TcpTransport.connect_sends incoming = [TcpTransport.register_line incoming] := by
  refine ⟨?_, ?_, rfl⟩
  · show TcpTransport.pyBytesFormat TcpTransport.sendTemplate [dest, data] = _
    simp [TcpTransport.sendTemplate, TcpTransport.pyBytesFormat]
  · show TcpTransport.pyBytesFormat TcpTransport.registerTemplate [incoming] = _
    simp [TcpTransport.registerTemplate, TcpTransport.pyBytesFormat]

/-- C9: when a command is constructed from string arguments and at least one
argument fails to coerce to its template's type, `CmdData.__init__` raises a
single `CommandArgumentsException` carrying the whole per-argument error list
produced by `process_args`, and no command object is produced. -/
theorem cmd_init_aggregates_errors {V : Type} (ext : CmdData.Externals V)
    (cmd_args : List (Option CmdData.PyStr)) (cmd_temp : CmdData.CmdTemplate)
    (hfail : ∃ e ∈ (CmdData.process_args ext cmd_temp cmd_args).2, e ≠ "") :
    CmdData.init ext cmd_args cmd_temp =
      Except.error (CmdData.process_args ext cmd_temp cmd_args).2 := by
  obtain ⟨e, hmem, hne⟩ := hfail
  have hpos :
      0 < ((CmdData.process_args ext cmd_temp cmd_args).2.filter
        (fun x => x ≠ "")).length := by
    apply List.length_pos.mpr
    intro hnil
    have := List.filter_eq_nil_iff.mp hnil e hmem
    simp [hne] at this
  simp only [CmdData.init, hpos, if_true, gt_iff_lt]

def trivialExternals : CmdData.Externals Unit :=
  { set_enum := fun _ => Except.ok ()
    to_float := fun _ => Except.ok ()
    to_int := fun _ _ => Except.ok ()
    set_string := fun _ => Except.ok ()
    json_loads := fun _ => Except.ok () }

theorem cmd_init_aggregates_errors_witness :
    (∃ e ∈ (CmdData.process_args trivialExternals
        ⟨5, [("ok", "", CmdData.ArgTy.boolTy), ("bad", "", CmdData.ArgTy.boolTy)]⟩
        [some "yes".toList, some "maybe".toList]).2, e ≠ "") ∧
      CmdData.init trivialExternals [some "yes".toList, some "maybe".toList]
          ⟨5, [("ok", "", CmdData.ArgTy.boolTy), ("bad", "", CmdData.ArgTy.boolTy)]⟩ =
        Except.error (CmdData.process_args trivialExternals
          ⟨5, [("ok", "", CmdData.ArgTy.boolTy), ("bad", "", CmdData.ArgTy.boolTy)]⟩
          [some "yes".toList, some "maybe".toList]).2 :=
  ⟨by decide,
    cmd_init_aggregates_errors trivialExternals [some "yes".toList, some "maybe".toList]
      ⟨5, [("ok", "", CmdData.ArgTy.boolTy), ("bad", "", CmdData.ArgTy.boolTy)]⟩
      (by decide)⟩

theorem findMarker_append_self (start t : List Nat) (h : start ≠ []) :
    FpFraming.findMarker start (start ++ t) = some 0 := by
  cases start with
  | nil => exact absurd rfl h
  | cons a s =>
    show FpFraming.findMarker (a :: s) (a :: (s ++ t)) = some 0
    have htake : (a :: (s ++ t)).take (a :: s).length = a :: s := by
      simp [List.take_left]
    simp [FpFraming.findMarker, htake]

theorem deframe_go_nil (start : List Nat) (crc : List Nat → Nat) (maxLen fuel : Nat) :
    FpFraming.deframe_go start crc maxLen fuel [] = ([], [], []) := by
  cases fuel with
  | zero => rfl
  | succ f => rfl

/-- C3: for every payload of byte length at most the configured maximum (the
maximum itself below 2^32, as the spec pins the length field to 32 bits), and
for any start marker of 4 bytes and any checksum function, deframing the bytes
produced by framing the payload with the default F prime wire format yields
exactly the one-element frame list containing the payload, with an empty
remaining pool and no bytes discarded. -/
theorem frame_deframe_roundtrip (start : List Nat) (crc : List Nat → Nat)
    (maxLen : Nat) (P : List Nat) (hstart : start.length = 4)
    (hmax : maxLen < 2 ^ 32) (hP : P.length ≤ maxLen) :
    FpFraming.deframe_all start crc maxLen (FpFraming.frame start crc P) =
      ([P], [], []) := by
  have hne : start ≠ [] := by
    intro h0
    rw [h0] at hstart
    simp at hstart
  have hlen4 : (natToBytes4 (crc (natToBytes4 P.length ++ P))).length = 4 := rfl
  have hpool : FpFraming.frame start crc P =
      start ++ (natToBytes4 P.length ++ (P ++
        natToBytes4 (crc (natToBytes4 P.length ++ P)))) := by
    simp [FpFraming.frame, List.append_assoc]
  have hmark := findMarker_append_self start
    (natToBytes4 P.length ++ (P ++ natToBytes4 (crc (natToBytes4 P.length ++ P)))) hne
  have hbody : (start ++ (natToBytes4 P.length ++ (P ++
      natToBytes4 (crc (natToBytes4 P.length ++ P))))).drop start.length =
      natToBytes4 P.length ++ (P ++ natToBytes4 (crc (natToBytes4 P.length ++ P))) :=
    List.drop_left _ _
  have htake4 : (natToBytes4 P.length ++ (P ++
      natToBytes4 (crc (natToBytes4 P.length ++ P)))).take 4 = natToBytes4 P.length :=
    List.take_left' rfl
  have hdrop4 : (natToBytes4 P.length ++ (P ++
      natToBytes4 (crc (natToBytes4 P.length ++ P)))).drop 4 =
      P ++ natToBytes4 (crc (natToBytes4 P.length ++ P)) :=
    List.drop_left' rfl
  have hn : bytesToNat (natToBytes4 P.length) = P.length :=
    bytesToNat_natToBytes4 P.length (by omega)
  have hpayload : (P ++ natToBytes4 (crc (natToBytes4 P.length ++ P))).take P.length = P :=
    List.take_left' rfl
  have hstored : ((P ++ natToBytes4 (crc (natToBytes4 P.length ++ P))).drop P.length).take 4 =
      natToBytes4 (crc (natToBytes4 P.length ++ P)) := by
    rw [List.drop_left' rfl]
    rw [show (4 : Nat) = (natToBytes4 (crc (natToBytes4 P.length ++ P))).length from rfl]
    exact List.take_length _
  have hrest : (start ++ (natToBytes4 P.length ++ (P ++
      natToBytes4 (crc (natToBytes4 P.length ++ P))))).drop
        (start.length + 4 + P.length + 4) = [] := by
    apply List.drop_eq_nil_of_le
    simp [hlen4, natToBytes4]
    omega
  simp only [FpFraming.deframe_all, hpool]
  simp only [FpFraming.deframe_go, hmark]
  simp only [List.take_zero, List.drop_zero, hbody, htake4, hdrop4, hn]
  have hc1 : ¬ ((natToBytes4 P.length ++ (P ++
      natToBytes4 (crc (natToBytes4 P.length ++ P)))).length < 4) := by
    simp [natToBytes4]
  have hc2 : ¬ (maxLen < P.length ∨
      (P ++ natToBytes4 (crc (natToBytes4 P.length ++ P))).length < P.length + 4) := by
    simp [natToBytes4]
    omega
  rw [if_neg hc1, if_neg hc2, hpayload, hstored, if_pos rfl, hrest, deframe_go_nil]
  rfl

theorem frame_deframe_roundtrip_witness :
    ([1, 2, 3, 4] : List Nat).length = 4 ∧ (100 : Nat) < 2 ^ 32 ∧
      ([0, 0, 0, 1, 170] : List Nat).length ≤ 100 ∧
      FpFraming.deframe_all [1, 2, 3, 4] (fun bs => bs.foldl (· + ·) 0) 100
          (FpFraming.frame [1, 2, 3, 4] (fun bs => bs.foldl (· + ·) 0)
            [0, 0, 0, 1, 170]) =
        ([[0, 0, 0, 1, 170]], [], []) :=
  ⟨by decide, by decide, by decide,
    frame_deframe_roundtrip [1, 2, 3, 4] (fun bs => bs.foldl (· + ·) 0) 100
      [0, 0, 0, 1, 170] (by decide) (by decide) (by decide)⟩
